import Mathlib

/-!
Verification development for the runtime multiple-dispatch core in
`src/wrap/multi_dispatch.py`.

Modelling conventions:
* Python class objects are opaque identities, modelled as `Nat`.
  `IGNORE_TYPE` (= `inspect._empty`, the wildcard marker, itself a class)
  is the distinguished identity `0`.
* The ambient interpreter facts the code introspects (`__bases__`,
  `__mro__`, `issubclass`, `__abstractmethods__`, `__subclasses__`,
  `get_cache_token`) are packaged in a `PyEnv` parameter.
* Implementations (callables) are opaque identities, modelled as `Nat`.
* `_c3_merge`'s `while True` loop and `_c3_mro`'s recursion over
  `__bases__` are modelled with explicit fuel; exhaustion is the distinct
  outcome `Err.outOfFuel`, never conflated with the
  `RuntimeError("Inconsistent hierarchy")` raise.
* Python `set` iteration order is unspecified; `pySetOfList` fixes one
  concrete order for the `set(...)` built in `_find_impl`.
* The wrapper calls `dispatch(cls)` with a *generator* of argument
  classes.  A generator hashes by identity, so the `dispatch_cache[cls]`
  and `registry[cls]` lookups inside `dispatch` can never hit for the
  fresh generator a wrapper call builds: we model the generator by a
  fresh key `genKey` for the cache, and the `registry[cls]` lookup as a
  guaranteed `KeyError` (see `dispatch` below).
-/

namespace MultiDispatch

/-- Wildcard marker: `IGNORE_TYPE = inspect._empty` in the source. -/
def IGNORE_TYPE : Nat := 0

/-- Interpreter-provided facts about class objects, as read by the code:
`bases c` is `c.__bases__`, `mro c` is `c.__mro__`, `issub c d` is
`issubclass(c, d)` (declared ancestry plus abc registrations),
`hasAbstract c` is `hasattr(c, '__abstractmethods__')`,
`subclasses c` is `c.__subclasses__()`, `hasMroAttr c` is
`hasattr(c, '__mro__')`, `isGA c` is `isinstance(c, GenericAlias)`,
`isType c` is `isinstance(c, type)`, and `currentToken` is
`abc.get_cache_token()`. -/
structure PyEnv where
  bases : Nat → List Nat
  mro : Nat → List Nat
  issub : Nat → Nat → Bool
  hasAbstract : Nat → Bool
  subclasses : Nat → List Nat
  hasMroAttr : Nat → Bool
  isGA : Nat → Bool
  isType : Nat → Bool
  currentToken : Nat

/-- Error outcomes of the linearization code. `inconsistentHierarchy`
is the `RuntimeError("Inconsistent hierarchy")` raised by `_c3_merge`;
`outOfFuel` is a modelling artifact for unbounded recursion. -/
inductive Err where
  | inconsistentHierarchy
  | outOfFuel
deriving DecidableEq, Repr

/-- Head-candidate search of `_c3_merge`: the first head among the
(nonempty, pre-filtered) sequences that does not appear in the tail of
any sequence. -/
def findCand (seqs : List (List Nat)) : Option Nat :=
  (seqs.filterMap (fun s1 => s1.head?)).find?
    (fun cand => seqs.all (fun s2 => !(s2.tail.contains cand)))

/-- One-loop-iteration-per-recursive-call model of `_c3_merge`
(src lines 16-41): purge empty sequences, stop when none remain, pick
the first valid head, raise `Inconsistent hierarchy` when no head is
valid, else append the candidate and delete it from every head. -/
def c3merge : Nat → List (List Nat) → Except Err (List Nat)
  | 0, _ => .error .outOfFuel
  | fuel + 1, sequences =>
    if (sequences.filter (fun s => !s.isEmpty)).isEmpty then .ok []
    else
      match findCand (sequences.filter (fun s => !s.isEmpty)) with
      | none => .error .inconsistentHierarchy
      | some cand =>
        match c3merge fuel ((sequences.filter (fun s => !s.isEmpty)).map
            (fun s => if s.head? = some cand then s.tail else s)) with
        | .error e => .error e
        | .ok rest => .ok (cand :: rest)

/-- `_c3_merge` run with fuel that the loop can never exhaust: every
iteration removes at least one element, so total length + 1 suffices. -/
def c3mergeRun (sequences : List (List Nat)) : Except Err (List Nat) :=
  c3merge ((sequences.map List.length).sum + 1) sequences

/-- Boundary computation of `_c3_mro` (src lines 60-65): index just
after the last direct base that carries `__abstractmethods__`, `0` when
none does. -/
def abcBoundary (env : PyEnv) (bs : List Nat) : Nat :=
  match bs.reverse.findIdx? env.hasAbstract with
  | some i => bs.length - i
  | none => 0

/-- `_c3_mro(cls, abcs)` (src lines 43-86), fuel-bounded on the
recursion through `__bases__`. -/
def c3mro (env : PyEnv) : Nat → Nat → List Nat → Except Err (List Nat)
  | 0, _, _ => .error .outOfFuel
  | fuel + 1, cls, abcs =>
    let bs := env.bases cls
    let boundary := abcBoundary env bs
    let explicitBases := bs.take boundary
    let abstractBases := abcs.filter
      (fun base => env.issub cls base && !(bs.any (fun b => env.issub b base)))
    let otherBases := bs.drop boundary
    let abcs2 := abstractBases.foldl List.erase abcs
    match explicitBases.mapM (fun b => c3mro env fuel b abcs2) with
    | .error e => .error e
    | .ok explicitMros =>
      match abstractBases.mapM (fun b => c3mro env fuel b abcs2) with
      | .error e => .error e
      | .ok abstractMros =>
        match otherBases.mapM (fun b => c3mro env fuel b abcs2) with
        | .error e => .error e
        | .ok otherMros =>
          c3mergeRun ([[cls]] ++ explicitMros ++ abstractMros ++ otherMros
            ++ [explicitBases, abstractBases, otherBases])

/-- Stable sort by descending length, modelling
`found.sort(key=len, reverse=True)` in `_compose_mro`. -/
def insertByLen (a : List Nat) : List (List Nat) → List (List Nat)
  | [] => [a]
  | b :: bs => if b.length ≤ a.length then a :: b :: bs else b :: insertByLen a bs

/-- Stable descending-by-length sort (CPython `list.sort` is stable). -/
def sortByLenDesc (l : List (List Nat)) : List (List Nat) :=
  l.foldr insertByLen []

/-- `_compose_mro(cls, types)` (src lines 88-128). -/
def composeMro (env : PyEnv) (fuel : Nat) (cls : Nat) (types : List Nat) :
    Except Err (List Nat) :=
  let bs := env.mro cls
  let isRelated := fun typ =>
    !(bs.contains typ) && env.hasMroAttr typ && !(env.isGA typ) && env.issub cls typ
  let types1 := types.filter isRelated
  let isStrictBase := fun typ =>
    types1.any (fun other => decide (typ ≠ other) && (env.mro other).contains typ)
  let types2 := types1.filter (fun typ => !isStrictBase typ)
  let typeSet := types2
  let mroAcc := types2.foldl
    (fun acc typ =>
      let found := (env.subclasses typ).filterMap
        (fun sub =>
          if !(bs.contains sub) && env.issub cls sub then
            some ((env.mro sub).filter (fun s => typeSet.contains s))
          else none)
      if found.isEmpty then acc ++ [typ]
      else
        (sortByLenDesc found).foldl
          (fun acc2 sub => sub.foldl
            (fun acc3 subcls => if acc3.contains subcls then acc3 else acc3 ++ [subcls])
            acc2)
          acc)
    []
  c3mro env fuel cls mroAcc

/-- Trie node (src class `Node`, lines 134-168): `value` is the
signature element (`none` models the root's `None` value), `children`
the ordered child list, `seq` the terminal payload. -/
inductive Node where
  | mk (value : Option Nat) (children : List Node) (seq : Option (List Nat))

/-- Value stored at a node. -/
def Node.value : Node → Option Nat
  | .mk v _ _ => v

/-- Ordered child list of a node. -/
def Node.children : Node → List Node
  | .mk _ cs _ => cs

/-- Terminal payload of a node. -/
def Node.seq : Node → Option (List Nat)
  | .mk _ _ s => s

/-- Wildcard-aware equality of `Node.__eq__` (src lines 156-165),
specialised to comparing a node's value against a class: true when the
node's value is the wildcard, the class is the wildcard, or they are
equal.  (The root's `None` value equals only the wildcard class, via
the `other == IGNORE_TYPE` branch.) -/
def nodeMatch (v : Option Nat) (t : Nat) : Bool :=
  v == some IGNORE_TYPE || t == IGNORE_TYPE || v == some t

/-- List-mode `Node.get` (src lines 143-148): with an iterable lookup
value, return the first child (in child order) that equals some member
of the iterable under `Node.__eq__`, else `None`. -/
def Node.get (n : Node) (value : List Nat) : Option Node :=
  n.children.find? (fun c => value.any (fun t => nodeMatch c.value t))

/-- Replace the first list element satisfying `p` by its `f`-image;
`none` when no element satisfies `p`.  Helper combining the
`part in current` membership test with `current.get(part)` (class
mode), which both select the first child equal to `part` under
`Node.__eq__`. -/
def updateFirst (p : Node → Bool) (f : Node → Node) : List Node → Option (List Node)
  | [] => none
  | c :: cs =>
    if p c then some (f c :: cs)
    else (updateFirst p f cs).map (fun cs2 => c :: cs2)

/-- Fresh chain of nodes built when `add_type` finds no matching child:
each remaining element becomes a new appended node, the last one
carrying the full signature as payload. -/
def newChain (full : List Nat) (part : Nat) : List Nat → Node
  | [] => .mk (some part) [] (some full)
  | q :: rest => .mk (some part) [newChain full q rest] none

/-- Recursive core of `TypeTree.add_type` (src lines 175-188): walk the
parts, descending into the first child matching the current part under
`Node.__eq__`, creating a fresh chain when none matches; finally
`set_seq(types)` stores the full signature at the reached node
(overwriting any payload already there). -/
def addTypeAux (full : List Nat) : List Nat → Node → Node
  | [], n => .mk n.value n.children (some full)
  | part :: rest, n =>
    match updateFirst (fun c => nodeMatch c.value part) (addTypeAux full rest) n.children with
    | some cs => .mk n.value cs n.seq
    | none => .mk n.value (n.children ++ [newChain full part rest]) n.seq

/-- `TypeTree.add_type(types)` on a tree rooted at `n`. -/
def Node.addType (n : Node) (types : List Nat) : Node :=
  addTypeAux types types n

/-- The empty tree `TypeTree([])`: a bare root `Node(None)`. -/
def emptyTree : Node := .mk none [] none

/-- Result of `TypeTree.__getitem__` (src lines 197-203): either the
`object` fallback returned when some position has no matching child, or
the `seq` payload (possibly `None`) of the node the walk ends on. -/
inductive TrieResult where
  | fallbackObject
  | reached (seq : Option (List Nat))
deriving DecidableEq, Repr

/-- `TypeTree.__getitem__(types)` (src lines 197-203): walk one
linearized candidate list per position via list-mode `Node.get`,
returning the `object` fallback as soon as a position has no matching
child, else the final node's payload. -/
def getItem : Node → List (List Nat) → TrieResult
  | current, [] => .reached current.seq
  | current, typ :: rest =>
    match current.get typ with
    | none => .fallbackObject
    | some c => getItem c rest

/-- Registry keys: the implicit default is stored under the bare class
`object` (`registry[object] = func`, src line 309); every explicit
registration is stored under its signature tuple. -/
inductive RKey where
  | obj
  | sig (s : List Nat)
deriving DecidableEq, Repr

/-- Python-dict lookup on the registry (insertion-ordered association
list). -/
def regGet (r : List (RKey × Nat)) (k : RKey) : Option Nat :=
  (r.find? (fun p => decide (p.1 = k))).map (fun p => p.2)

/-- Membership test `cls in registry`. -/
def regHasKey (r : List (RKey × Nat)) (k : RKey) : Bool :=
  (regGet r k).isSome

/-- Python-dict assignment `registry[k] = v`: update in place when the
key exists (preserving insertion order), else append. -/
def regSet : List (RKey × Nat) → RKey → Nat → List (RKey × Nat)
  | [], k, v => [(k, v)]
  | (k2, v2) :: r, k, v =>
    if k2 = k then (k, v) :: r else (k2, v2) :: regSet r k v

/-- One fixed iteration order for a Python `set` built from a list
(keep the last occurrence of each duplicate); CPython's set order is
unspecified, and nothing proved below depends on the choice. -/
def pySetOfList : List Nat → List Nat
  | [] => []
  | x :: xs =>
    if (pySetOfList xs).contains x then pySetOfList xs else x :: pySetOfList xs

/-- The flattened set of classes occurring in non-`object` registry
keys, as computed at the top of `_find_impl` (src lines 215-216). -/
def registryTyps (registry : List (RKey × Nat)) : List Nat :=
  pySetOfList ((registry.filterMap
    (fun p => match p.1 with | .sig s => some s | .obj => none)).flatten)

/-- `_find_impl(cls, registry, types_cache)` (src lines 205-219):
linearize each actual class against the registered classes, query the
trie, and look the resulting key up in the registry.  A `reached none`
walk (non-terminal final node) yields `registry.get(None)`, which is
`None` because `None` is never a registry key. -/
def findImpl (env : PyEnv) (fuel : Nat) (cls : List Nat)
    (registry : List (RKey × Nat)) (tree : Node) : Except Err (Option Nat) :=
  match cls.mapM (fun c => composeMro env fuel c (registryTyps registry)) with
  | .error e => .error e
  | .ok mroList =>
    match getItem tree mroList with
    | .fallbackObject => .ok (regGet registry .obj)
    | .reached none => .ok none
    | .reached (some s) => .ok (regGet registry (.sig s))

/-- Mutable state owned by one `multi_dispatch` application: the
registry, the `TypeTree`, the weak-keyed dispatch cache (keyed here by
the identity of the generator object the wrapper passes), and the
observed abc cache token. -/
structure DState where
  registry : List (RKey × Nat)
  trie : Node
  cache : List (Nat × Option Nat)
  token : Option Nat

/-- Cache lookup by generator identity. -/
def lookupCache (cache : List (Nat × Option Nat)) (k : Nat) : Option (Option Nat) :=
  (cache.find? (fun p => p.1 == k)).map (fun p => p.2)

/-- Token check at the top of `dispatch` (src lines 254-258): when a
token is being observed and `get_cache_token()` has advanced, clear the
cache and refresh the token. -/
def tokenStep (env : PyEnv) (st : DState) : List (Nat × Option Nat) × Option Nat :=
  match st.token with
  | some t => if env.currentToken ≠ t then ([], some env.currentToken) else (st.cache, st.token)
  | none => (st.cache, none)

/-- `dispatch(cls)` as invoked by the wrapper (src lines 246-267,
301-306).  The wrapper passes `cls = (arg.__class__ for arg in args)`,
a generator: `dispatch_cache[cls]` is keyed by the generator's
identity `genKey`, and `registry[cls]` raises `KeyError` uncondition-
ally because a generator is never equal to a tuple key or to the
`object` key, so control always falls through to `_find_impl` unless
the (identity-keyed) cache hits. -/
def dispatch (env : PyEnv) (fuel : Nat) (st : DState) (genKey : Nat)
    (cls : List Nat) : Except Err (Option Nat × DState) :=
  match lookupCache (tokenStep env st).1 genKey with
  | some impl =>
    .ok (impl, { st with cache := (tokenStep env st).1, token := (tokenStep env st).2 })
  | none =>
    match findImpl env fuel cls st.registry st.trie with
    | .error e => .error e
    | .ok impl =>
      .ok (impl,
        { st with cache := (genKey, impl) :: (tokenStep env st).1,
                  token := (tokenStep env st).2 })

/-- `_is_valid_dispatch_type(cls)` (src lines 269-270). -/
def isValidDispatchType (env : PyEnv) (c : Nat) : Bool :=
  env.isType c && !(env.isGA c)

/-- Errors raised by `register` (both are `TypeError` in the source;
the payloads mirror the data interpolated into the messages:
the function being registered and the signature). -/
inductive RegErr where
  | duplicateRegistration (func : Nat) (s : List Nat)
  | invalidSignatureElement (s : List Nat)
deriving DecidableEq, Repr

/-- Body of `register` after `cls = _get_args_type(func)` (src lines
280-299), written as a total function returning the post-state and an
optional raised error; a raise returns the *unchanged* pre-state, as in
the source where both raises precede every mutation.  On success:
`registry[cls] = func`, `types_cache.add_type(cls)`, token observation,
and `dispatch_cache.clear()`. -/
def registerSig (env : PyEnv) (sig : List Nat) (func : Nat) (force : Bool)
    (st : DState) : DState × Option RegErr :=
  if !force && regHasKey st.registry (.sig sig) then
    (st, some (.duplicateRegistration func sig))
  else if sig.any (fun c => !isValidDispatchType env c) then
    (st, some (.invalidSignatureElement sig))
  else
    ({ registry := regSet st.registry (.sig sig) func,
       trie := st.trie.addType sig,
       cache := [],
       token :=
         if st.token = none && sig.any env.hasAbstract then some env.currentToken
         else st.token },
     none)

/-- Parameter kinds of `inspect.Parameter`. -/
inductive ParamKind where
  | positionalOnly
  | positionalOrKeyword
  | varPositional
  | keywordOnly
  | varKeyword
deriving DecidableEq, Repr

/-- One parameter of a registered function: its kind and its type
hint (`none` when unannotated, in which case `param.annotation` is
`inspect._empty = IGNORE_TYPE`). -/
structure Param where
  kind : ParamKind
  ann : Option Nat
deriving DecidableEq, Repr

/-- `_get_args_type(func)` (src lines 221-228): the tuple of type
hints of *all* parameters of `func` in declaration order, with
`inspect._empty` (the wildcard) for unannotated ones. -/
def getArgsType (ps : List Param) : List Nat :=
  ps.map (fun p => p.ann.getD IGNORE_TYPE)

/-- `register(func, force)` (src lines 272-299): derive the signature
from the function's parameters, then run the registration body. -/
def register (env : PyEnv) (ps : List Param) (func : Nat) (force : Bool)
    (st : DState) : DState × Option RegErr :=
  registerSig env (getArgsType ps) func force st

/-- State created at decorator application (src lines 241-244, 309):
registry holding only `registry[object] = func`, an empty `TypeTree`,
an empty cache and no observed token. -/
def initState (func : Nat) : DState :=
  { registry := [(.obj, func)], trie := emptyTree, cache := [], token := none }

mutual

/-- Number of nodes in a tree (root included). -/
def Node.size : Node → Nat
  | .mk _ cs _ => 1 + Node.sizeList cs

/-- Total node count of a list of trees. -/
def Node.sizeList : List Node → Nat
  | [] => 0
  | c :: cs => Node.size c + Node.sizeList cs

end

mutual

/-- All terminal payloads stored anywhere in a tree, in preorder. -/
def Node.seqsOf : Node → List (List Nat)
  | .mk _ cs s => s.toList ++ Node.seqsOfList cs

/-- All terminal payloads stored in a list of trees. -/
def Node.seqsOfList : List Node → List (List Nat)
  | [] => []
  | c :: cs => Node.seqsOf c ++ Node.seqsOfList cs

end

/-- Walk of `add_type` restricted to the case where every part matches
an existing child: descend, at each part, into the first child equal to
it under `Node.__eq__`, returning the node the walk ends on, or `none`
as soon as some part has no matching child. -/
def walkEnd : List Nat → Node → Option Node
  | [], n => some n
  | part :: rest, n =>
    match n.children.find? (fun c => nodeMatch c.value part) with
    | some c => walkEnd rest c
    | none => none

/-- Modelled from the spec: the lookup the specification describes for
one position — try each class of the position's linearized order in
specificity order, and follow the first *child* matching the first such
class that has one.  Compared against the implemented `Node.get`. -/
def Node.getSpec (n : Node) (value : List Nat) : Option Node :=
  (value.find? (fun t => n.children.any (fun c => nodeMatch c.value t))).bind
    (fun t => n.children.find? (fun c => nodeMatch c.value t))

/-- Modelled from the spec: the claim's reading of `_get_args_type` —
only *positional* parameters contribute to the registered signature.
Compared against the implemented `getArgsType`. -/
def positionalArgsType (ps : List Param) : List Nat :=
  (ps.filter (fun p =>
    p.kind == ParamKind.positionalOnly || p.kind == ParamKind.positionalOrKeyword)).map
    (fun p => p.ann.getD IGNORE_TYPE)

/-- Concrete `__bases__` table: `0` = `inspect._empty` (wildcard),
`1` = `object`, `2` = `Animal`, `3` = `Dog`, `4` = `Cat`, `5` = `Bird`,
`6` = a non-class object. -/
def basesA : Nat → List Nat := fun c =>
  if c = 0 then [1]
  else if c = 2 then [1]
  else if c = 3 then [2]
  else if c = 4 then [2]
  else if c = 5 then [2]
  else []

/-- Concrete `__mro__` table matching `basesA`. -/
def mroA : Nat → List Nat := fun c =>
  if c = 0 then [0, 1]
  else if c = 1 then [1]
  else if c = 2 then [2, 1]
  else if c = 3 then [3, 2, 1]
  else if c = 4 then [4, 2, 1]
  else if c = 5 then [5, 2, 1]
  else [c]

/-- Concrete interpreter environment for the Animal / Dog / Cat / Bird
hierarchy, with no abstract classes and `6` modelling a value that is
not a class. -/
def envA : PyEnv where
  bases := basesA
  mro := mroA
  issub := fun c d => (mroA c).contains d
  hasAbstract := fun _ => false
  subclasses := fun c => if c = 2 then [3, 4, 5] else if c = 1 then [0, 2] else []
  hasMroAttr := fun _ => true
  isGA := fun _ => false
  isType := fun c => decide (c ≠ 6)
  currentToken := 7

/-- Concrete `__bases__` table with an inconsistent C3 hierarchy:
`4` has bases `[2, 3]`, `5` has bases `[3, 2]`, and `6` inherits from
both `4` and `5`. -/
def basesC : Nat → List Nat := fun c =>
  if c = 2 then [1]
  else if c = 3 then [1]
  else if c = 4 then [2, 3]
  else if c = 5 then [3, 2]
  else if c = 6 then [4, 5]
  else []

/-- Environment whose class `6` admits no C3 linearization. -/
def envC : PyEnv where
  bases := basesC
  mro := fun c => [c]
  issub := fun _ _ => false
  hasAbstract := fun _ => false
  subclasses := fun _ => []
  hasMroAttr := fun _ => true
  isGA := fun _ => false
  isType := fun _ => true
  currentToken := 0

/-- State for the totality failing input: default implementation `200`
plus one registration `(Dog, Cat) ↦ 201`. -/
def stC1 : DState :=
  (registerSig envA [3, 4] 201 false (initState 200)).1

/-- State for exactness: default `100`, then `(Animal,) ↦ 101`
registered before `(Dog,) ↦ 102`. -/
def stC2 : DState :=
  (registerSig envA [3] 102 false
    ((registerSig envA [2] 101 false (initState 100)).1)).1

/-- State for the two-parameter scenario: default `D = 300`, then
`A = 301` for `(Dog, wildcard)`, then `B = 302` for `(Dog, Cat)`. -/
def stC4 : DState :=
  (registerSig envA [3, 4] 302 false
    ((registerSig envA [3, IGNORE_TYPE] 301 false (initState 300)).1)).1

/-- Tree holding only the signature `(Dog, wildcard)`, for the
overwrite-on-insert claim. -/
def treeC10 : Node := emptyTree.addType [3, IGNORE_TYPE]

/-- The node `walkEnd` reaches in `treeC10` along `(Dog, Cat)`: the
wildcard child of the `Dog` child, currently holding payload
`(Dog, wildcard)`. -/
def nodeC10 : Node := .mk (some IGNORE_TYPE) [] (some [3, IGNORE_TYPE])

/-- Parameter list of a function `def f(x: Dog, *, y: Cat)`: one
positional-or-keyword parameter annotated `Dog`, one keyword-only
parameter annotated `Cat`. -/
def psC9 : List Param :=
  [⟨.positionalOrKeyword, some 3⟩, ⟨.keywordOnly, some 4⟩]

/-! Helper lemmas. -/

theorem lookupCache_eq_none (cache : List (Nat × Option Nat)) (k : Nat)
    (hk : k ∉ cache.map Prod.fst) : lookupCache cache k = none := by
  induction cache with
  | nil => rfl
  | cons p r ih =>
    simp only [List.map_cons, List.mem_cons, not_or] at hk
    simp only [lookupCache, List.find?_cons]
    have : (p.1 == k) = false := by
      simp only [beq_eq_false_iff_ne, ne_eq]
      exact fun h => hk.1 h.symm
    rw [this]
    exact ih hk.2

theorem lookupCache_tokenStep (env : PyEnv) (st : DState) (k : Nat)
    (hk : k ∉ st.cache.map Prod.fst) : lookupCache (tokenStep env st).1 k = none := by
  unfold tokenStep
  cases st.token with
  | none => exact lookupCache_eq_none _ _ hk
  | some t =>
    dsimp only
    split
    · rfl
    · exact lookupCache_eq_none _ _ hk

theorem regGet_regSet_self (r : List (RKey × Nat)) (k : RKey) (v : Nat) :
    regGet (regSet r k v) k = some v := by
  induction r with
  | nil => simp [regSet, regGet]
  | cons p r ih =>
    obtain ⟨k2, v2⟩ := p
    by_cases h : k2 = k
    · simp [regSet, regGet, h]
    · simp only [regSet, if_neg h]
      simpa [regGet, List.find?_cons, h] using ih

theorem find?_eq_some_split {α : Type} (p : α → Bool) :
    ∀ (l : List α) (a : α), l.find? p = some a ↔
      ∃ l₁ l₂, l = l₁ ++ a :: l₂ ∧ p a = true ∧ ∀ x ∈ l₁, p x = false := by
  intro l
  induction l with
  | nil =>
    intro a
    constructor
    · intro h; cases h
    · rintro ⟨l₁, l₂, h, -, -⟩
      exact absurd h (by simp)
  | cons x xs ih =>
    intro a
    by_cases hx : p x = true
    · rw [List.find?_cons_of_pos _ hx]
      constructor
      · rintro ⟨rfl⟩
        exact ⟨[], xs, rfl, hx, by simp⟩
      · rintro ⟨l₁, l₂, heq, hpa, hfail⟩
        cases l₁ with
        | nil =>
          have hxa : x = a := by simpa using congrArg List.head? heq
          rw [hxa]
        | cons y l₁ =>
          have hy : x = y := by simpa using congrArg List.head? heq
          have hfy : p y = false := hfail y (by simp)
          rw [← hy, hx] at hfy
          cases hfy
    · have hx' : p x = false := by simpa using hx
      rw [List.find?_cons_of_neg _ (by simp [hx'])]
      rw [ih a]
      constructor
      · rintro ⟨l₁, l₂, rfl, hpa, hfail⟩
        refine ⟨x :: l₁, l₂, rfl, hpa, ?_⟩
        intro y hy
        rcases List.mem_cons.mp hy with rfl | hy
        · exact hx'
        · exact hfail y hy
      · rintro ⟨l₁, l₂, heq, hpa, hfail⟩
        cases l₁ with
        | nil =>
          have hxa : x = a := by simpa using congrArg List.head? heq
          rw [← hxa, hx'] at hpa
          cases hpa
        | cons y l₁ =>
          have htail : xs = l₁ ++ a :: l₂ := by simpa using congrArg List.tail heq
          exact ⟨l₁, l₂, htail, hpa, fun z hz => hfail z (by simp [hz])⟩

/-! Claim theorems. -/

/-- C1 (code bug): with the implicit default `200` present in the
registry together with the registration `(Dog, Cat) ↦ 201`, dispatching
the single-argument class tuple `(Dog,)` walks the trie to the
*non-terminal* `Dog` node, whose `seq` is `None`; `registry.get(None)`
then yields `None`, so `dispatch` returns no implementation at all —
contradicting the claimed totality (the wrapper subsequently crashes
calling `None`). -/
theorem c1_totality_code_bug :
    (dispatch envA 10 stC1 0 [3]).map (fun p => p.1) = .ok none ∧
    regGet stC1.registry .obj = some 200 :=
  ⟨rfl, rfl⟩

/-- C2 (counterexample): with the default `100`, `(Animal,) ↦ 101`
registered before `(Dog,) ↦ 102`, a wrapper call whose actual class
tuple is exactly the registered signature `(Dog,)` resolves to `101`,
not to the exactly-registered `102`: the wrapper passes a generator, so
the exact `registry[cls]` lookup never hits, and the trie walk follows
the earlier-inserted `Animal` child first. -/
theorem c2_counterexample :
    (dispatch envA 10 stC2 0 [3]).map (fun p => p.1) = .ok (some 101) ∧
    regGet stC2.registry (.sig [3]) = some 102 ∧
    (some 101 : Option Nat) ≠ some 102 :=
  ⟨rfl, rfl, by decide⟩

/-- C2 (amended): through the wrapper, the exact registry lookup is
never consulted — even when the call's class tuple is itself a
registered signature, the result of `dispatch` is exactly the result of
the linearized trie search `_find_impl`, for every cache state and
fresh generator key. -/
theorem c2_amended_trie_search (env : PyEnv) (fuel : Nat) (st : DState)
    (k : Nat) (cls : List Nat) (f : Nat)
    (hk : k ∉ st.cache.map Prod.fst)
    (_hf : regGet st.registry (.sig cls) = some f) :
    (dispatch env fuel st k cls).map (fun p => p.1) =
      findImpl env fuel cls st.registry st.trie := by
  unfold dispatch
  rw [lookupCache_tokenStep env st k hk]
  cases hF : findImpl env fuel cls st.registry st.trie <;> simp [hF, Except.map]

/-- Witness for C2 (amended) at the concrete `stC2` state. -/
theorem c2_amended_witness :
    (dispatch envA 10 stC2 0 [3]).map (fun p => p.1) =
      findImpl envA 10 [3] stC2.registry stC2.trie :=
  c2_amended_trie_search envA 10 stC2 0 [3] 102 (by decide) (by rfl)

/-- C3 (counterexample): in the trie holding `(Animal,)` (inserted
first) and `(Dog,)`, the list-mode lookup with the linearized order
`[Dog, Animal, object]` returns the `Animal` child — the first child in
*insertion* order matching any candidate — whereas the claimed
most-specific-first candidate scan would return the `Dog` child. -/
theorem c3_counterexample :
    (Node.get stC2.trie [3, 2, 1]).map Node.value = some (some 2) ∧
    (Node.getSpec stC2.trie [3, 2, 1]).map Node.value = some (some 3) ∧
    (Node.get stC2.trie [3, 2, 1]).map Node.value ≠
      (Node.getSpec stC2.trie [3, 2, 1]).map Node.value :=
  ⟨rfl, rfl, by decide⟩

/-- C3 (amended): at each position the lookup follows the *first child
in the node's child (insertion) order* that wildcard-matches *any*
class of the position's linearized list — not the child of the most
specific matching candidate — and the walk returns the `object`
fallback the first time no child matches at some position. -/
theorem c3_amended_first_child (n : Node) (v : List Nat) :
    (∀ c, Node.get n v = some c ↔
      ∃ l₁ l₂, n.children = l₁ ++ c :: l₂ ∧
        (v.any fun t => nodeMatch c.value t) = true ∧
        ∀ c' ∈ l₁, (v.any fun t => nodeMatch c'.value t) = false) ∧
    (∀ rest, Node.get n v = none → getItem n (v :: rest) = .fallbackObject) := by
  constructor
  · intro c
    exact find?_eq_some_split (fun c => v.any fun t => nodeMatch c.value t) n.children c
  · intro rest h
    unfold getItem
    rw [h]

/-- Witness for C3 (amended): no child of `stC2.trie` matches the
candidate list `[9]`, so the trie lookup falls back to `object`. -/
theorem c3_amended_witness :
    getItem stC2.trie [[9]] = TrieResult.fallbackObject :=
  (c3_amended_first_child stC2.trie [9]).2 [] (by rfl)

/-- C4 (counterexample): after registering `D = 300` as default,
`A = 301` for `(Dog, wildcard)` and `B = 302` for `(Dog, Cat)` in that
order, the call with classes `(Dog, Bird)` resolves to `B = 302`, not
to `A = 301` as the claim states: inserting `(Dog, Cat)` merged into
the existing wildcard child of `Dog` and overwrote its payload. -/
theorem c4_counterexample :
    (dispatch envA 10 stC4 0 [3, 5]).map (fun p => p.1) = .ok (some 302) ∧
    regGet stC4.registry (.sig [3, IGNORE_TYPE]) = some 301 ∧
    (Except.ok (some 302) : Except Err (Option Nat)) ≠ .ok (some 301) :=
  ⟨rfl, rfl, by simp⟩

/-- C4 (amended): in the scenario of the claim, `(Dog, Cat)` resolves
to `B = 302`, `(Dog, Bird)` *also* resolves to `B = 302` (because the
`(Dog, Cat)` insertion merged into the `(Dog, wildcard)` path and
overwrote the shared leaf's payload), and `(Bird, Cat)` falls back to
the default `D = 300`. -/
theorem c4_amended_scenario :
    (dispatch envA 10 stC4 0 [3, 4]).map (fun p => p.1) = .ok (some 302) ∧
    (dispatch envA 10 stC4 1 [3, 5]).map (fun p => p.1) = .ok (some 302) ∧
    (dispatch envA 10 stC4 2 [5, 4]).map (fun p => p.1) = .ok (some 300) :=
  ⟨rfl, rfl, rfl⟩

/-- C9 (counterexample): for a function `def f(x: Dog, *, y: Cat)`,
`_get_args_type` produces the signature `(Dog, Cat)` — it includes the
keyword-only parameter — while the claim's positional-parameters-only
reading would produce `(Dog,)`. -/
theorem c9_counterexample :
    getArgsType psC9 = [3, 4] ∧ positionalArgsType psC9 = [3] ∧
    getArgsType psC9 ≠ positionalArgsType psC9 :=
  ⟨rfl, rfl, by decide⟩

/-- C5 (confirmed): with fixed registry and trie, the implementation
returned by `dispatch` does not depend on the prior cache contents, the
observed token, or the (fresh) generator key of the call — in
particular a cleared cache (`c₂ = []`) yields the same implementation.
The wrapper builds a fresh generator per call, so its key is never a
prior cache key. -/
theorem c5_cache_transparency (env : PyEnv) (fuel : Nat)
    (reg : List (RKey × Nat)) (tree : Node)
    (c₁ c₂ : List (Nat × Option Nat)) (t₁ t₂ : Option Nat)
    (k₁ k₂ : Nat) (cls : List Nat)
    (h₁ : k₁ ∉ c₁.map Prod.fst) (h₂ : k₂ ∉ c₂.map Prod.fst) :
    (dispatch env fuel ⟨reg, tree, c₁, t₁⟩ k₁ cls).map (fun p => p.1) =
      (dispatch env fuel ⟨reg, tree, c₂, t₂⟩ k₂ cls).map (fun p => p.1) := by
  unfold dispatch
  rw [lookupCache_tokenStep env ⟨reg, tree, c₁, t₁⟩ k₁ h₁,
    lookupCache_tokenStep env ⟨reg, tree, c₂, t₂⟩ k₂ h₂]
  cases hF : findImpl env fuel cls reg tree <;> simp [hF, Except.map]

/-- Witness for C5 at the scenario state: a polluted cache and a
cleared cache give the same result. -/
theorem c5_witness :
    (dispatch envA 10 ⟨stC4.registry, stC4.trie, [(5, some 999)], none⟩ 3
        [3, 4]).map (fun p => p.1) =
      (dispatch envA 10 ⟨stC4.registry, stC4.trie, [], none⟩ 0
        [3, 4]).map (fun p => p.1) :=
  c5_cache_transparency envA 10 stC4.registry stC4.trie [(5, some 999)] []
    none none 3 0 [3, 4] (by decide) (by decide)

/-- Helper: when the walk of `_find_impl` reaches a terminal node whose
payload is a registered signature, the registration for that signature
is returned. -/
theorem findImpl_of_walk (env : PyEnv) (fuel : Nat) (cls : List Nat)
    (reg : List (RKey × Nat)) (tree : Node) (mros : List (List Nat))
    (s : List Nat) (f : Nat)
    (hm : cls.mapM (fun c => composeMro env fuel c (registryTyps reg)) = .ok mros)
    (hw : getItem tree mros = .reached (some s))
    (hr : regGet reg (.sig s) = some f) :
    findImpl env fuel cls reg tree = .ok (some f) := by
  unfold findImpl
  rw [hm]
  dsimp only
  rw [hw]
  simp [hr]

/-- C6 (confirmed): when `sig` already has a registration, `register`
with `force=False` raises `DuplicateRegistration` (carrying the
offending function and signature) and leaves the whole state untouched,
while `force=True` succeeds, overwrites the registry entry, clears the
cache, and subsequent resolution reaching that signature in the trie
returns the new implementation. -/
theorem c6_duplicate_registration (env : PyEnv) (st : DState)
    (sig : List Nat) (f fOld : Nat)
    (hOld : regGet st.registry (.sig sig) = some fOld)
    (hValid : ∀ c ∈ sig, isValidDispatchType env c = true) :
    registerSig env sig f false st = (st, some (.duplicateRegistration f sig)) ∧
    ∃ st', registerSig env sig f true st = (st', none) ∧
      regGet st'.registry (.sig sig) = some f ∧
      st'.cache = [] ∧ st'.trie = st.trie.addType sig ∧
      ∀ fuel cls mros,
        cls.mapM (fun c => composeMro env fuel c (registryTyps st'.registry)) = .ok mros →
        getItem st'.trie mros = .reached (some sig) →
        findImpl env fuel cls st'.registry st'.trie = .ok (some f) := by
  have hnv : (sig.any fun c => !isValidDispatchType env c) = false := by
    rw [List.any_eq_false]
    intro c hc
    simp [hValid c hc]
  constructor
  · have hhk : regHasKey st.registry (.sig sig) = true := by
      unfold regHasKey
      rw [hOld]
      rfl
    unfold registerSig
    simp [hhk]
  · have hsucc : registerSig env sig f true st =
        (⟨regSet st.registry (.sig sig) f, st.trie.addType sig, [],
          if st.token = none && sig.any env.hasAbstract
            then some env.currentToken else st.token⟩,
          none) := by
      unfold registerSig
      simp [hnv]
    refine ⟨_, hsucc, ?_, rfl, rfl, ?_⟩
    · exact regGet_regSet_self st.registry (.sig sig) f
    · intro fuel cls mros hm hw
      exact findImpl_of_walk env fuel cls _ _ mros sig f hm hw
        (regGet_regSet_self st.registry (.sig sig) f)

/-- Witness for C6: re-registering `(Dog,)` without force on `stC2`
raises the duplicate error and returns the state unchanged. -/
theorem c6_witness :
    registerSig envA [3] 555 false stC2 =
      (stC2, some (.duplicateRegistration 555 [3])) :=
  (c6_duplicate_registration envA stC2 [3] 555 102 (by rfl) (by decide)).1

/-- C7 (confirmed): registering a signature containing an element that
is not a class (or is a `GenericAlias`) raises
`InvalidSignatureElement` and performs no mutation at all — the
returned state is exactly the pre-call state.  The side condition that
every already-registered signature is valid holds of every reachable
registry, since `register` is the only writer and rejects invalid
signatures. -/
theorem c7_invalid_signature_atomic (env : PyEnv) (st : DState)
    (sig : List Nat) (f : Nat) (force : Bool)
    (hinv : (sig.any fun c => !isValidDispatchType env c) = true)
    (hreg : ∀ s fs, regGet st.registry (.sig s) = some fs →
      (s.all fun c => isValidDispatchType env c) = true) :
    registerSig env sig f force st = (st, some (.invalidSignatureElement sig)) := by
  have hnk : regHasKey st.registry (.sig sig) = false := by
    cases hk : regHasKey st.registry (.sig sig) with
    | false => rfl
    | true =>
      unfold regHasKey at hk
      obtain ⟨fs, hfs⟩ := Option.isSome_iff_exists.mp hk
      have hall := hreg sig fs hfs
      rw [List.any_eq_true] at hinv
      obtain ⟨c, hc, hcv⟩ := hinv
      rw [List.all_eq_true] at hall
      have := hall c hc
      simp [this] at hcv
  unfold registerSig
  rw [hnk]
  simp [hinv]

/-- Witness for C7: registering the non-class element `6` on the
freshly decorated state raises `InvalidSignatureElement` and leaves the
state unchanged. -/
theorem c7_witness :
    registerSig envA [6] 77 false (initState 300) =
      (initState 300, some (.invalidSignatureElement [6])) :=
  c7_invalid_signature_atomic envA (initState 300) [6] 77 false (by decide)
    (by intro s fs h; exact Option.noConfusion h)

/-- C8 (confirmed): whenever the sequences reaching a `_c3_merge`
iteration are not exhausted but every available head occurs in some
sequence's tail, the merge raises `Inconsistent hierarchy`; and any
linearization error arising while `dispatch` computes the per-argument
orders propagates unchanged to the caller (the surrounding
`except KeyError` cannot swallow it). -/
theorem c8_inconsistent_hierarchy :
    (∀ seqs : List (List Nat),
      seqs.filter (fun s => !s.isEmpty) ≠ [] →
      (∀ h ∈ (seqs.filter (fun s => !s.isEmpty)).filterMap List.head?,
        ∃ s2 ∈ seqs.filter (fun s => !s.isEmpty), h ∈ s2.tail) →
      c3mergeRun seqs = .error .inconsistentHierarchy) ∧
    (∀ (env : PyEnv) (fuel : Nat) (st : DState) (k : Nat) (cls : List Nat)
        (e : Err),
      k ∉ st.cache.map Prod.fst →
      cls.mapM (fun c => composeMro env fuel c (registryTyps st.registry)) =
        (.error e : Except Err (List (List Nat))) →
      dispatch env fuel st k cls = .error e) := by
  constructor
  · intro seqs hne hbad
    have hfc : findCand (seqs.filter (fun s => !s.isEmpty)) = none := by
      rw [findCand, List.find?_eq_none]
      intro h hh
      obtain ⟨s2, hs2, hmem⟩ := hbad h hh
      intro hall
      rw [List.all_eq_true] at hall
      have hfalse := hall s2 hs2
      simp only [Bool.not_eq_true'] at hfalse
      have htrue : s2.tail.contains h = true := List.elem_eq_true_of_mem hmem
      rw [htrue] at hfalse
      cases hfalse
    have hemp : (seqs.filter (fun s => !s.isEmpty)).isEmpty = false := by
      rw [List.isEmpty_eq_false]
      exact hne
    unfold c3mergeRun c3merge
    rw [hemp, hfc]
    simp
  · intro env fuel st k cls e hk hm
    unfold dispatch
    rw [lookupCache_tokenStep env st k hk]
    unfold findImpl
    rw [hm]

/-- Witness for C8: a direct cycle between two orderings makes the
merge fail, and a diamond with contradictory base orders makes
`dispatch` raise the error to its caller. -/
theorem c8_witness :
    c3mergeRun [[1, 2], [2, 1]] = .error .inconsistentHierarchy ∧
    dispatch envC 10 (initState 900) 0 [6] = .error .inconsistentHierarchy :=
  ⟨c8_inconsistent_hierarchy.1 [[1, 2], [2, 1]] (by decide) (by decide),
    c8_inconsistent_hierarchy.2 envC 10 (initState 900) 0 [6]
      .inconsistentHierarchy (by decide) (by rfl)⟩

/-- Helper: an all-unannotated parameter list yields the all-wildcard
signature. -/
theorem getArgsType_all_none (ps : List Param)
    (h : ∀ p ∈ ps, p.ann = none) :
    getArgsType ps = List.replicate ps.length IGNORE_TYPE := by
  induction ps with
  | nil => rfl
  | cons p ps ih =>
    have h1 : p.ann = none := h p (by simp)
    have h2 := ih (fun q hq => h q (by simp [hq]))
    show (p.ann.getD IGNORE_TYPE) :: getArgsType ps =
      List.replicate (ps.length + 1) IGNORE_TYPE
    rw [h1, List.replicate_succ, h2]
    rfl

/-- C9 (amended): the signature `register` installs for a function is
the tuple of the type hints of *all* its parameters in declaration
order — keyword-only and variadic parameters included — with the
wildcard for each unannotated parameter; a function with no annotated
parameters installs an all-wildcard signature of its arity. -/
theorem c9_amended_all_params (env : PyEnv) (ps : List Param) (f : Nat)
    (force : Bool) (st st' : DState)
    (h : register env ps f force st = (st', none)) :
    regGet st'.registry (.sig (ps.map fun p => p.ann.getD IGNORE_TYPE)) = some f ∧
    ((∀ p ∈ ps, p.ann = none) →
      regGet st'.registry (.sig (List.replicate ps.length IGNORE_TYPE)) = some f) := by
  unfold register registerSig at h
  split at h
  · exact absurd (congrArg Prod.snd h) (by simp)
  · split at h
    · exact absurd (congrArg Prod.snd h) (by simp)
    · have hst : st' =
          { registry := regSet st.registry (.sig (getArgsType ps)) f,
            trie := st.trie.addType (getArgsType ps),
            cache := [],
            token := if st.token = none && (getArgsType ps).any env.hasAbstract
              then some env.currentToken else st.token } :=
        (congrArg Prod.fst h).symm
      constructor
      · rw [hst]
        exact regGet_regSet_self st.registry (.sig (getArgsType ps)) f
      · intro hall
        rw [hst, ← getArgsType_all_none ps hall]
        exact regGet_regSet_self st.registry (.sig (getArgsType ps)) f

/-- Witness for C9 (amended) at the two-parameter function `psC9`. -/
theorem c9_witness :
    regGet ((register envA psC9 44 false (initState 100)).1).registry
      (.sig (psC9.map fun p => p.ann.getD IGNORE_TYPE)) = some 44 :=
  (c9_amended_all_params envA psC9 44 false (initState 100)
    ((register envA psC9 44 false (initState 100)).1) (by rfl)).1

/-! Machinery for the trie overwrite-on-insert claim. -/

theorem size_mk (v : Option Nat) (cs : List Node) (s : Option (List Nat)) :
    Node.size (.mk v cs s) = 1 + Node.sizeList cs := rfl

theorem sizeList_cons (c : Node) (cs : List Node) :
    Node.sizeList (c :: cs) = Node.size c + Node.sizeList cs := rfl

theorem sizeList_append : ∀ l₁ l₂ : List Node,
    Node.sizeList (l₁ ++ l₂) = Node.sizeList l₁ + Node.sizeList l₂ := by
  intro l₁ l₂
  induction l₁ with
  | nil => simp [Node.sizeList]
  | cons c cs ih =>
    rw [List.cons_append, sizeList_cons, sizeList_cons, ih]
    omega

theorem seqsOf_mk (v : Option Nat) (cs : List Node) (s : Option (List Nat)) :
    Node.seqsOf (.mk v cs s) = s.toList ++ Node.seqsOfList cs := rfl

theorem seqsOfList_cons (c : Node) (cs : List Node) :
    Node.seqsOfList (c :: cs) = Node.seqsOf c ++ Node.seqsOfList cs := rfl

theorem seqsOfList_append : ∀ l₁ l₂ : List Node,
    Node.seqsOfList (l₁ ++ l₂) = Node.seqsOfList l₁ ++ Node.seqsOfList l₂ := by
  intro l₁ l₂
  induction l₁ with
  | nil => simp [Node.seqsOfList]
  | cons c cs ih =>
    rw [List.cons_append, seqsOfList_cons, seqsOfList_cons, ih, List.append_assoc]

theorem updateFirst_append (p : Node → Bool) (f : Node → Node) :
    ∀ (l₁ : List Node) (c : Node) (l₂ : List Node),
      (∀ x ∈ l₁, p x = false) → p c = true →
      updateFirst p f (l₁ ++ c :: l₂) = some (l₁ ++ f c :: l₂) := by
  intro l₁
  induction l₁ with
  | nil =>
    intro c l₂ _ hc
    simp [updateFirst, hc]
  | cons x l₁ ih =>
    intro c l₂ hfail hc
    have hx : p x = false := hfail x (by simp)
    simp [updateFirst, hx, ih c l₂ (fun y hy => hfail y (by simp [hy])) hc]

theorem value_mk (v : Option Nat) (cs : List Node) (s : Option (List Nat)) :
    (Node.mk v cs s).value = v := rfl

theorem children_mk (v : Option Nat) (cs : List Node) (s : Option (List Nat)) :
    (Node.mk v cs s).children = cs := rfl

theorem seq_mk (v : Option Nat) (cs : List Node) (s : Option (List Nat)) :
    (Node.mk v cs s).seq = s := rfl

theorem addTypeAux_cons (full : List Nat) (part : Nat) (rest : List Nat)
    (v : Option Nat) (cs : List Node) (sq : Option (List Nat)) :
    addTypeAux full (part :: rest) (Node.mk v cs sq) =
      match updateFirst (fun c => nodeMatch c.value part)
          (addTypeAux full rest) cs with
      | some cs2 => Node.mk v cs2 sq
      | none => Node.mk v (cs ++ [newChain full part rest]) sq := rfl

theorem addTypeAux_value (full : List Nat) :
    ∀ (s : List Nat) (n : Node), (addTypeAux full s n).value = n.value := by
  intro s n
  cases s with
  | nil => rfl
  | cons part rest =>
    unfold addTypeAux
    cases updateFirst (fun c => nodeMatch c.value part)
        (addTypeAux full rest) n.children <;> rfl

/-- Core induction for the overwrite claim: when the full walk of
`add_type` matches an existing child at every position (ending at node
`ν`), insertion preserves the node count, the same walk in the new tree
ends at `ν` with its payload replaced by the inserted signature, and
the multiset of stored payloads changes exactly by removing `ν`'s old
payload and adding the inserted one. -/
theorem addTypeAux_spec (full : List Nat) :
    ∀ (s : List Nat) (n ν : Node), walkEnd s n = some ν →
      (addTypeAux full s n).size = n.size ∧
      walkEnd s (addTypeAux full s n) =
        some (Node.mk ν.value ν.children (some full)) ∧
      ∀ x, (addTypeAux full s n).seqsOf.count x + ν.seq.toList.count x =
        (full :: n.seqsOf).count x := by
  intro s
  induction s with
  | nil =>
    intro n ν h
    obtain ⟨v, cs, sq⟩ := n
    have hν : ν = Node.mk v cs sq := (Option.some.inj h).symm
    subst hν
    refine ⟨rfl, rfl, ?_⟩
    intro x
    show ((Node.mk v cs (some full)).seqsOf).count x +
      (Node.mk v cs sq).seq.toList.count x = _
    rw [seqsOf_mk, seqsOf_mk, seq_mk]
    simp only [Option.toList_some, List.count_append,
      List.count_cons, List.singleton_append]
    omega
  | cons part rest ih =>
    intro n ν h
    obtain ⟨v, cs, sq⟩ := n
    simp only [walkEnd, children_mk] at h
    cases hfc : cs.find? (fun c => nodeMatch c.value part) with
    | none => rw [hfc] at h; cases h
    | some c =>
      rw [hfc] at h
      obtain ⟨sizeEq, walkEq, countEq⟩ := ih c ν h
      obtain ⟨l₁, l₂, hsplit, hpm, hfail⟩ :=
        (find?_eq_some_split (fun c => nodeMatch c.value part) cs c).mp hfc
      have hupd : updateFirst (fun x => nodeMatch x.value part)
          (addTypeAux full rest) cs =
          some (l₁ ++ addTypeAux full rest c :: l₂) := by
        rw [hsplit]
        exact updateFirst_append _ _ l₁ c l₂ hfail hpm
      have haddeq : addTypeAux full (part :: rest) (Node.mk v cs sq) =
          Node.mk v (l₁ ++ addTypeAux full rest c :: l₂) sq := by
        rw [addTypeAux_cons, hupd]
      rw [haddeq]
      refine ⟨?_, ?_, ?_⟩
      · rw [size_mk, size_mk, hsplit, sizeList_append, sizeList_append,
          sizeList_cons, sizeList_cons, sizeEq]
      · have hv : nodeMatch (addTypeAux full rest c).value part = true := by
          rw [addTypeAux_value]
          exact hpm
        have hfind : (l₁ ++ addTypeAux full rest c :: l₂).find?
            (fun x => nodeMatch x.value part) = some (addTypeAux full rest c) :=
          (find?_eq_some_split (fun x => nodeMatch x.value part) _ _).mpr
            ⟨l₁, l₂, rfl, hv, hfail⟩
        simp only [walkEnd, children_mk, hfind]
        exact walkEq
      · intro x
        have hce := countEq x
        rw [List.count_cons] at hce
        rw [seqsOf_mk, seqsOf_mk, hsplit, seqsOfList_append, seqsOfList_append,
          seqsOfList_cons, seqsOfList_cons, List.count_cons]
        simp only [List.count_append] at hce ⊢
        omega

/-- C10 (confirmed): when every element of an inserted signature
wildcard-matches an existing child along a path (the `add_type` walk
ends at an existing node `ν`), insertion creates no new node, the
reached node's payload is unconditionally replaced by the inserted
signature, and — when the node previously stored a different signature
occurring nowhere else — that old signature is no longer stored
anywhere in the trie. -/
theorem c10_wildcard_overwrite (t : Node) (s : List Nat) (ν : Node)
    (h : walkEnd s t = some ν) :
    (t.addType s).size = t.size ∧
    walkEnd s (t.addType s) = some (Node.mk ν.value ν.children (some s)) ∧
    ∀ s1, ν.seq = some s1 → s1 ≠ s →
      (t.addType s).seqsOf.count s1 + 1 = t.seqsOf.count s1 ∧
      (t.seqsOf.count s1 = 1 → s1 ∉ (t.addType s).seqsOf) := by
  obtain ⟨sizeEq, walkEq, countEq⟩ := addTypeAux_spec s s t ν h
  unfold Node.addType
  refine ⟨sizeEq, walkEq, ?_⟩
  intro s1 hseq hne
  have hc := countEq s1
  rw [hseq] at hc
  simp [List.count_cons, hne, Ne.symm hne] at hc
  constructor
  · omega
  · intro h1
    have hz : (addTypeAux s s t).seqsOf.count s1 = 0 := by omega
    exact List.count_eq_zero.mp hz

/-- Witness for C10: after inserting `(Dog, Cat)` into the tree holding
only `(Dog, wildcard)`, the old signature `(Dog, wildcard)` is no
longer stored anywhere in the trie. -/
theorem c10_witness :
    [3, IGNORE_TYPE] ∉ (treeC10.addType [3, 4]).seqsOf :=
  ((c10_wildcard_overwrite treeC10 [3, 4] nodeC10 (by rfl)).2.2
    [3, IGNORE_TYPE] rfl (by decide)).2 (by rfl)

end MultiDispatch
